import Mathlib

/-!
# Verification of the depman dependency manager against its specification

Shallow embedding of the Go sources of `sobhit-avrl/depman-v1`:
version classification (`pkg/depman/config.go`), the downloader
(`internal/downloader/downloader.go`), manifest location
(`pkg/depman/config.go`), and the dependency engine
(`Manager.CheckAllDependencies` / `Manager.EnsureDependencies` /
`Manager.VerifyDependency` / `Manager.installDependency`).

External collaborators (the Masterminds semver parser, the OS, subprocess
execution, HTTP, the SHA-256 implementation) are modelled as explicit
parameters (oracles); code of the repository itself is translated
definition by definition.
-/

namespace Depman

/-! ## Version classification (pkg/depman/config.go)

`UpdateType` mirrors the Go enumeration in the model file; `SemVer`
represents a parsed `semver.Version` of the Masterminds library (major,
minor, patch, prerelease identifiers; build metadata is ignored by the
library's `Compare`, so it is omitted).  Parsing of version strings lives
in the external library; the embedding works on parsed values. -/

inductive UpdateType where
  | NoUpdate
  | PatchUpdate
  | MinorUpdate
  | MajorUpdate
deriving DecidableEq, Repr

structure SemVer where
  major : Nat
  minor : Nat
  patch : Nat
  pre : List String := []
deriving DecidableEq, Repr

/-- Is a prerelease identifier purely numeric? -/
def isNumericIdent (s : String) : Bool :=
  s.length > 0 && s.data.all Char.isDigit

/-- Compare two prerelease identifiers: numeric identifiers compare
numerically and are lower than alphanumeric ones; alphanumeric ones
compare lexically (semver rules, as implemented by the Masterminds
library's prerelease comparison). -/
def identCompare (a b : String) : Ordering :=
  if isNumericIdent a then
    if isNumericIdent b then
      compare (a.toNat?.getD 0) (b.toNat?.getD 0)
    else .lt
  else
    if isNumericIdent b then .gt
    else compare a b

/-- Compare prerelease identifier lists; a shorter list that is a prefix
of the other is lower. -/
def preListCompare : List String → List String → Ordering
  | [], [] => .eq
  | [], _ :: _ => .lt
  | _ :: _, [] => .gt
  | a :: as, b :: bs =>
    match identCompare a b with
    | .eq => preListCompare as bs
    | o => o

/-- Semantic-version comparison (`semver.Version.Compare`): major, minor,
patch, then prerelease, where the absence of a prerelease ranks above any
prerelease. -/
def semverCompare (a b : SemVer) : Ordering :=
  match compare a.major b.major with
  | .eq =>
    match compare a.minor b.minor with
    | .eq =>
      match compare a.patch b.patch with
      | .eq =>
        match a.pre, b.pre with
        | [], [] => .eq
        | [], _ :: _ => .gt
        | _ :: _, [] => .lt
        | x :: xs, y :: ys => preListCompare (x :: xs) (y :: ys)
      | o => o
    | o => o
  | o => o

/-- `current` is greater than or equal to `required` in semantic-version
order. -/
def semverGe (a b : SemVer) : Bool :=
  match semverCompare a b with
  | .lt => false
  | _ => true

/-- `CheckVersionUpdate` (config.go lines 83–111) after both strings have
been parsed: if the versions are equal, no update; otherwise the first
component (major, then minor, then patch) where `current` is strictly
below `required` determines the class, and if no component is strictly
below, no update. -/
def checkVersionUpdate (current required : SemVer) : UpdateType :=
  if semverCompare current required = .eq then .NoUpdate
  else if current.major < required.major then .MajorUpdate
  else if current.minor < required.minor then .MinorUpdate
  else if current.patch < required.patch then .PatchUpdate
  else .NoUpdate

/-! ## Version extraction from command output (extractVersion)

`extractVersion` tries, in order, three Go regular expressions against the
verify command's output and returns the first captured `MAJOR.MINOR.PATCH`
core; since the first pattern `v?(\d+\.\d+\.\d+)` matches anywhere the
other two do and captures the same core, the function returns the
leftmost `digits.digits.digits` run (an optional preceding `v` is
consumed but not captured), and the untouched input when no position
matches. -/

/-- Split a character list into its leading run of decimal digits and the
rest. -/
def takeDigits : List Char → List Char × List Char
  | [] => ([], [])
  | c :: cs =>
    if c.isDigit then
      let (d, r) := takeDigits cs
      (c :: d, r)
    else ([], c :: cs)

/-- Match `\d+\.\d+\.\d+` at the head of the character list, returning
the captured characters. -/
def matchCore (cs : List Char) : Option (List Char) :=
  let (d1, r1) := takeDigits cs
  if d1 = [] then none
  else
    match r1 with
    | '.' :: r2 =>
      let (d2, r3) := takeDigits r2
      if d2 = [] then none
      else
        match r3 with
        | '.' :: r4 =>
          let (d3, _) := takeDigits r4
          if d3 = [] then none
          else some (d1 ++ '.' :: d2 ++ '.' :: d3)
        | _ => none
    | _ => none

/-- Leftmost match of `v?(\d+\.\d+\.\d+)`: at each position try the core
match, consuming one optional leading `v`. -/
def findVer : List Char → Option (List Char)
  | [] => none
  | c :: cs =>
    match if c = 'v' then matchCore cs else matchCore (c :: cs) with
    | some v => some v
    | none => findVer cs

/-- `extractVersion` (manager model file, lines 399–415): first captured
version core, or the original output when no pattern matches. -/
def extractVersion (output : String) : String :=
  match findVer output.data with
  | some v => String.mk v
  | none => output

/-! ## String helpers

Character-level implementations of the Go `strings` operations the
sources use (ASCII case folding suffices for the hex digests and
algorithm tags they are applied to). -/

/-- `strings.Split` on a single separator character. -/
def splitCharsOn (sep : Char) : List Char → List (List Char)
  | [] => [[]]
  | c :: cs =>
    let r := splitCharsOn sep cs
    if c = sep then [] :: r
    else
      match r with
      | [] => [[c]]
      | g :: gs => (c :: g) :: gs

/-- `strings.Split s ":"` as a list of strings. -/
def splitOnChar (sep : Char) (s : String) : List String :=
  (splitCharsOn sep s.data).map String.mk

/-- ASCII lower-casing of one character. -/
def charToLower (c : Char) : Char :=
  if 'A' ≤ c ∧ c ≤ 'Z' then Char.ofNat (c.toNat + 32) else c

/-- `strings.ToLower` (ASCII). -/
def strToLower (s : String) : String :=
  String.mk (s.data.map charToLower)

/-- ASCII whitespace for `strings.TrimSpace`. -/
def isSpaceChar (c : Char) : Bool :=
  c = ' ' ∨ c = '\t' ∨ c = '\n' ∨ c = '\r'

/-- `strings.TrimSpace` (ASCII whitespace). -/
def trimStr (s : String) : String :=
  String.mk (((s.data.dropWhile isSpaceChar).reverse.dropWhile isSpaceChar).reverse)

/-- Remove `pat` from the front of a character list, if present. -/
def dropPat : List Char → List Char → Option (List Char)
  | [], cs => some cs
  | _ :: _, [] => none
  | p :: ps, c :: cs => if c = p then dropPat ps cs else none

/-- Fuel-driven scan for `strings.ReplaceAll`: replace every leftmost,
non-overlapping occurrence of `pat` by `repl`.  Each step consumes at
least one character when `pat` is non-empty, so fuel equal to the input
length suffices. -/
def replaceAllCharsAux (pat repl : List Char) : Nat → List Char → List Char
  | 0, cs => cs
  | _ + 1, [] => []
  | fuel + 1, c :: cs =>
    match dropPat pat (c :: cs) with
    | some rest => repl ++ replaceAllCharsAux pat repl fuel rest
    | none => c :: replaceAllCharsAux pat repl fuel cs

/-- `strings.ReplaceAll` for the non-empty patterns the sources use
(the literal `\x7bdownload_path\x7d` placeholder). -/
def replaceAllChars (pat repl s : List Char) : List Char :=
  replaceAllCharsAux pat repl s.length s

/-- `strings.ReplaceAll` on strings. -/
def replaceAllStr (s pat repl : String) : String :=
  String.mk (replaceAllChars pat.data repl.data s.data)

/-- `strings.HasSuffix`. -/
def hasSuffixStr (s pat : String) : Bool :=
  pat.data.isSuffixOf s.data

/-! ## Downloader (internal/downloader/downloader.go)

The OS and network are explicit: the HTTP outcome is a parameter, the
SHA-256 implementation (external crypto library) is a parameter
`hashHex : List Nat → String` mapping the streamed bytes to their hex
digest.  The model records, besides the returned value, the state of the
destination file after the call: `os.Create` runs before `http.Get`, and
`os.Remove` is called only on the checksum-mismatch path.  `io.Copy` of a
delivered body is modelled as succeeding. -/

structure DownloadOptions where
  url : String
  checksum : String
  destDir : String
  filename : String
deriving Repr

structure DlResult where
  filePath : String
  size : Nat
  checksum : String
deriving DecidableEq, Repr

/-- The outcome of `http.Get`: either a transport error or a response
with a status code and a body (byte list). -/
inductive HttpOutcome where
  | netError
  | response (statusCode : Nat) (body : List Nat)
deriving Repr

inductive DlError where
  | httpError
  | badStatus (statusCode : Nat)
  | invalidChecksumFormat
  | unsupportedAlgorithm (alg : String)
  | checksumMismatch (expected actual : String)
deriving DecidableEq, Repr

/-- State of the destination path after `Download` returns. -/
inductive FileState where
  | absent
  | present (content : List Nat)
deriving DecidableEq, Repr

structure DlOutcome where
  result : Except DlError DlResult
  file : FileState
deriving Repr

/-- `filepath.Base` of a URL: the final path segment. -/
def urlBase (url : String) : String :=
  match (splitOnChar '/' url).getLast? with
  | some s => s
  | none => url

/-- Case-insensitive ASCII string equality (`strings.EqualFold` on hex
digests). -/
def eqFold (a b : String) : Bool :=
  strToLower a = strToLower b

/-- `Download` (downloader.go lines 46–128).  Control flow in source
order: create the destination file (making it exist, empty), issue the
GET, reject any status other than 200 (`http.StatusOK`), validate the
checksum request (`algorithm:hash` split, only `sha256`), stream the body
while hashing, then compare digests case-insensitively, removing the file
and failing on mismatch. -/
def download (hashHex : List Nat → String) (opts : DownloadOptions)
    (http : HttpOutcome) : DlOutcome :=
  let filename := if opts.filename = "" then urlBase opts.url else opts.filename
  let destPath := opts.destDir ++ "/" ++ filename
  -- os.Create destPath: the file now exists and is empty
  match http with
  | .netError => ⟨.error .httpError, .present []⟩
  | .response statusCode body =>
    if statusCode ≠ 200 then ⟨.error (.badStatus statusCode), .present []⟩
    else
      if opts.checksum ≠ "" then
        let parts := splitOnChar ':' opts.checksum
        if parts.length ≠ 2 then ⟨.error .invalidChecksumFormat, .present []⟩
        else
          let algorithm := strToLower parts.headI
          if algorithm ≠ "sha256" then
            ⟨.error (.unsupportedAlgorithm algorithm), .present []⟩
          else
            let actual := hashHex body
            let expected := parts.getD 1 ""
            if ¬ eqFold actual expected then
              ⟨.error (.checksumMismatch expected actual), .absent⟩
            else
              ⟨.ok ⟨destPath, body.length, actual⟩, .present body⟩
      else ⟨.ok ⟨destPath, body.length, ""⟩, .present body⟩

/-! ## Manifest file location (FindDependencyFile, config.go lines 41–80)

The file system is a list of existing paths; `HOME`, `runtime.GOOS` and
`APPDATA` are parameters.  `filepath.Join` is modelled by `/`
concatenation. -/

structure FileSys where
  files : List String
deriving Repr

/-- `os.Stat` succeeding on a path. -/
def statOk (fs : FileSys) (p : String) : Bool :=
  fs.files.contains p

/-- The ordered list of standard locations probed by
`FindDependencyFile`. -/
def searchPaths (home goos appData : String) : List String :=
  ["app-dependencies.yml",
   "config/app-dependencies.yml",
   "../app-dependencies.yml",
   "../config/app-dependencies.yml",
   home ++ "/.config/depman/app-dependencies.yml"] ++
  (if goos = "windows" ∧ appData ≠ "" then
    [appData ++ "/depman/app-dependencies.yml"]
   else [])

/-- First existing path of a candidate list. -/
def findFirstExisting (fs : FileSys) : List String → Option String
  | [] => none
  | p :: ps => if statOk fs p then some p else findFirstExisting fs ps

/-- `FindDependencyFile`: check the custom path, then (when it carries no
recognized extension) its `.yml` variant, and in every remaining case
fall through to the standard locations; `none` models the
"dependency configuration file not found" error. -/
def findDependencyFile (fs : FileSys) (home goos appData : String)
    (customPath : String) : Option String :=
  if customPath ≠ "" then
    if statOk fs customPath then some customPath
    else if (!hasSuffixStr customPath ".yml" && !hasSuffixStr customPath ".yaml")
        && statOk fs (customPath ++ ".yml") then
      some (customPath ++ ".yml")
    else findFirstExisting fs (searchPaths home goos appData)
  else findFirstExisting fs (searchPaths home goos appData)

/-! ## Data model (manager model file, lines 10–118)

Go maps become association lists; subprocess execution, the network and
the Masterminds parsing routines are oracles gathered in `ExecWorld` and
`SemverLib`. -/

structure Version where
  required : String
  constraint : String
deriving DecidableEq, Repr

structure Installer where
  type : String
  url : String
  checksum : String
deriving DecidableEq, Repr

structure Commands where
  install : List String
  verify : List String
  uninstall : List String
deriving DecidableEq, Repr

structure PlatformConfig where
  installer : Installer
  commands : Commands
deriving DecidableEq, Repr

structure EnvironmentSpec where
  path : List String
  vars : List (String × String)
deriving DecidableEq, Repr

structure Dependency where
  name : String
  description : String
  version : Version
  platforms : List (String × PlatformConfig)
  environment : EnvironmentSpec
  dependencies : List String
deriving DecidableEq, Repr

structure DependencyConfig where
  version : String
  name : String
  description : String
  dependencies : List Dependency
deriving DecidableEq, Repr

structure Manager where
  config : DependencyConfig
  platform : String
deriving Repr

structure DependencyStatus where
  name : String
  installed : Bool := false
  currentVersion : String := ""
  requiredUpdate : UpdateType := .NoUpdate
  compatible : Bool := false
  error : Option String := none
deriving DecidableEq, Repr

/-- The external Masterminds semver library: version-string parsing,
constraint-string parsing success, and constraint satisfaction. -/
structure SemverLib where
  parseVersion : String → Option SemVer
  constraintOk : String → Bool
  constraintCheck : String → SemVer → Bool

/-- Outcome of a verify subprocess bounded by the 30-second timeout. -/
inductive ExecOutcome where
  | timeout
  | exitErr (output : String)
  | success (output : String)
deriving DecidableEq, Repr

/-- The effectful surroundings of the engine: verify and install
subprocesses keyed by their argument vector, the downloader (url and
checksum to downloaded path or error), and whether
`ApplyToCurrentProcess` succeeds. -/
structure ExecWorld where
  runVerify : List String → ExecOutcome
  runInstall : List String → Option String
  download : String → String → Except String String
  applyEnvOk : Bool

/-- `CheckVersionUpdate` on version strings (config.go lines 83–111),
with the library parser explicit. -/
def checkVersionUpdateStr (parseVersion : String → Option SemVer)
    (currentVersion requiredVersion : String) : Except String UpdateType :=
  match parseVersion currentVersion with
  | none => .error ("invalid current version: " ++ currentVersion)
  | some current =>
    match parseVersion requiredVersion with
    | none => .error ("invalid required version: " ++ requiredVersion)
    | some required => .ok (checkVersionUpdate current required)

/-- `IsVersionCompatible` (config.go lines 114–129). -/
def isVersionCompatibleStr (lib : SemverLib)
    (currentVersion constraintStr : String) : Except String Bool :=
  match lib.parseVersion currentVersion with
  | none => .error ("invalid version: " ++ currentVersion)
  | some v =>
    if lib.constraintOk constraintStr then .ok (lib.constraintCheck constraintStr v)
    else .error ("invalid constraint: " ++ constraintStr)

/-! ## Validation (validateDependencies, manager model file, lines 196–229) -/

/-- Errors the validation loop contributes for one dependency: a missing
platform bundle skips the version checks (the loop `continue`s);
otherwise an empty required version and an unparsable non-empty
constraint each contribute one error. -/
def depErrors (lib : SemverLib) (platform : String) (dep : Dependency) :
    List String :=
  match dep.platforms.lookup platform with
  | none => ["dependency has no configuration for platform: " ++ dep.name]
  | some _ =>
    (if dep.version.required = "" then
      ["dependency has no required version: " ++ dep.name]
     else []) ++
    (if dep.version.constraint ≠ "" then
      if lib.constraintOk dep.version.constraint then []
      else ["dependency has invalid version constraint: " ++ dep.name]
     else [])

/-- `validateDependencies`: an empty dependency list is one error and an
early return; otherwise the per-dependency errors accumulate in manifest
order. -/
def validateDependencies (lib : SemverLib) (m : Manager) : List String :=
  if m.config.dependencies = [] then ["no dependencies defined in configuration"]
  else m.config.dependencies.foldl (fun errs dep => errs ++ depErrors lib m.platform dep) []

/-! ## Verification (VerifyDependency, manager model file, lines 303–395) -/

/-- The current version recorded after a successful verify run: the
trimmed output, replaced by `extractVersion`'s result when that is
non-empty. -/
def verifiedVersion (out : String) : String :=
  let outputStr := trimStr out
  let v := extractVersion outputStr
  if v ≠ "" then v else outputStr

/-- `VerifyDependency`: returns the status together with the raised
error (`none` when the function returns `status, nil`).  After a
successful subprocess run, classification and compatibility failures are
written to `status.error` and the function still returns `none` as its
error; an absent constraint marks the status compatible. -/
def verifyDependency (lib : SemverLib) (w : ExecWorld) (m : Manager)
    (dep : Dependency) : DependencyStatus × Option String :=
  let status : DependencyStatus := { name := dep.name }
  match dep.platforms.lookup m.platform with
  | none =>
    let e := "no configuration available for platform: " ++ m.platform
    ({ status with error := some e }, some e)
  | some platformConfig =>
    if platformConfig.commands.verify = [] then
      let e := "no verification command provided for dependency: " ++ dep.name
      ({ status with error := some e }, some e)
    else
      match w.runVerify platformConfig.commands.verify with
      | .timeout =>
        let e := "verification command timed out after 30 seconds"
        ({ status with error := some e }, some e)
      | .exitErr out =>
        let e := "dependency verification failed, output: " ++ trimStr out
        ({ status with error := some e }, some e)
      | .success out =>
        let st1 := { status with installed := true, currentVersion := verifiedVersion out }
        let st2 :=
          if dep.version.required ≠ "" then
            match checkVersionUpdateStr lib.parseVersion st1.currentVersion dep.version.required with
            | .error e => { st1 with error := some e }
            | .ok u => { st1 with requiredUpdate := u }
          else st1
        let st3 :=
          if dep.version.constraint ≠ "" then
            match isVersionCompatibleStr lib st2.currentVersion dep.version.constraint with
            | .error e => { st2 with error := some e }
            | .ok b => { st2 with compatible := b }
          else { st2 with compatible := true }
        (st3, none)

/-! ## Installation (installDependency, manager model file, lines 234–300) -/

/-- Result of `installDependency`; `panicked` models the Go runtime
panic from indexing `installCmd[0]` on an empty argument vector. -/
inductive InstallResult where
  | panicked
  | failed (msg : String)
  | installedOk
deriving DecidableEq, Repr

/-- Substitute the literal `{download_path}` placeholder in every
argument of the install template. -/
def substituteInstallArgs (tmpl : List String) (downloadPath : String) :
    List String :=
  tmpl.map (fun arg => replaceAllStr arg "{download_path}" downloadPath)

/-- `installDependency`: resolve the platform bundle, download when the
installer URL is non-empty (temporary-directory creation is modelled as
succeeding), substitute the placeholder, and execute
`installCmd[0], installCmd[1:]` — a Go index-out-of-range panic when the
substituted vector is empty. -/
def installDependency (w : ExecWorld) (m : Manager) (dep : Dependency) :
    InstallResult :=
  match dep.platforms.lookup m.platform with
  | none => .failed ("no configuration available for platform: " ++ m.platform)
  | some platformConfig =>
    let dl : Except String String :=
      if platformConfig.installer.url ≠ "" then
        w.download platformConfig.installer.url platformConfig.installer.checksum
      else .ok ""
    match dl with
    | .error e => .failed ("failed to download dependency: " ++ e)
    | .ok downloadPath =>
      match substituteInstallArgs platformConfig.commands.install downloadPath with
      | [] => .panicked
      | c :: args =>
        match w.runInstall (c :: args) with
        | some out => .failed ("installation failed, output: " ++ out)
        | none => .installedOk

/-! ## The engine (CheckAllDependencies / EnsureDependencies)

`CheckAllDependencies` returns its statuses as an association list in
manifest order (the Go map keyed by the unique dependency names holds the
same entries; the list order is the order in which `CheckDependency` runs
inside the loop).  `EnsureDependencies` ranges over that Go map, whose
iteration order the language leaves unspecified: the order is the
explicit parameter `iterOrder`. -/

/-- `CheckAllDependencies` (manager orchestration file, lines 281–297):
abort on validation errors with no statuses, otherwise record
`CheckDependency`'s status for every dependency, discarding the raised
error. -/
def checkAllDependencies (lib : SemverLib) (w : ExecWorld) (m : Manager) :
    Except String (List (String × DependencyStatus)) :=
  let errors := validateDependencies lib m
  if errors ≠ [] then
    .error ("dependency configuration errors: " ++ String.intercalate "; " errors)
  else
    .ok (m.config.dependencies.map (fun dep => (dep.name, (verifyDependency lib w m dep).1)))

/-- Replace the entry of `name` in a status map (the Go code mutates the
struct behind the map's pointer, or assigns `statuses[name]`). -/
def updateEntry (sts : List (String × DependencyStatus)) (name : String)
    (st : DependencyStatus) : List (String × DependencyStatus) :=
  sts.map (fun p => if p.1 = name then (p.1, st) else p)

/-- How `EnsureDependencies` ended: loop ran to completion, a hard error
was returned to the caller, or the process panicked. -/
inductive EnsureTermination where
  | completed
  | hardError (msg : String)
  | panicked
deriving DecidableEq, Repr

structure LoopOut where
  statuses : List (String × DependencyStatus)
  term : EnsureTermination
  installs : List String
deriving Repr

/-- The skip condition of the ensure loop: already installed, compatible,
and no update required. -/
def upToDate (st : DependencyStatus) : Bool :=
  st.installed && st.compatible && st.requiredUpdate = .NoUpdate

/-- The install loop of `EnsureDependencies` (manager orchestration file,
lines 225–264), iterating in the map order `iterOrder`: skip statuses
that are installed, compatible and need no update; look the dependency up
in the manifest; install (a failure writes the error into the status and
aborts, a panic aborts everything); accumulate its environment
(`setupDependencyEnvironment` always returns nil); re-verify, aborting on
a raised verify error, else overwrite the status.  `installs` records the
names for which `installDependency` ran, in order. -/
def ensureLoop (lib : SemverLib) (w : ExecWorld) (m : Manager) :
    List String → List (String × DependencyStatus) → LoopOut
  | [], sts => ⟨sts, .completed, []⟩
  | name :: rest, sts =>
    match sts.lookup name with
    | none => ensureLoop lib w m rest sts
    | some status =>
      if upToDate status then
        ensureLoop lib w m rest sts
      else
        match m.config.dependencies.find? (fun d => d.name = name) with
        | none => ⟨sts, .hardError ("dependency not found in configuration: " ++ name), []⟩
        | some dep =>
          match installDependency w m dep with
          | .panicked => ⟨sts, .panicked, [name]⟩
          | .failed e =>
            ⟨updateEntry sts name { status with error := some e, installed := false },
             .hardError e, [name]⟩
          | .installedOk =>
            match verifyDependency lib w m dep with
            | (_, some e) => ⟨sts, .hardError e, [name]⟩
            | (updatedStatus, none) =>
              let out := ensureLoop lib w m rest (updateEntry sts name updatedStatus)
              { out with installs := name :: out.installs }

/-- The observable outcome of `EnsureDependencies`: the returned status
map (`none` models a Go nil map, or nothing returned on panic), the
termination kind, whether `ApplyToCurrentProcess` was invoked
(`applied`), whether its failure was logged as a warning, and the install
invocation order. -/
structure EnsureOut where
  statuses : Option (List (String × DependencyStatus))
  term : EnsureTermination
  applied : Bool
  applyWarnLogged : Bool
  installs : List String
deriving Repr

/-- `EnsureDependencies` (manager orchestration file, lines 212–272):
validate (aborting with a nil map), run `CheckAllDependencies`, run the
install loop over the map iteration order, and — only when the loop runs
to completion — call `ApplyToCurrentProcess`, logging (not raising) its
failure. -/
def ensureDependencies (lib : SemverLib) (w : ExecWorld) (m : Manager)
    (iterOrder : List String) : EnsureOut :=
  if validateDependencies lib m ≠ [] then
    ⟨none, .hardError "invalid dependency configuration", false, false, []⟩
  else
    match checkAllDependencies lib w m with
    | .error e => ⟨none, .hardError e, false, false, []⟩
    | .ok statuses =>
      let out := ensureLoop lib w m iterOrder statuses
      match out.term with
      | .completed => ⟨some out.statuses, .completed, true, !w.applyEnvOk, out.installs⟩
      | .panicked => ⟨none, .panicked, false, false, out.installs⟩
      | .hardError e => ⟨some out.statuses, .hardError e, false, false, out.installs⟩

/-! ## Concrete fixtures

Small manifests, oracle worlds and library stubs used to evaluate the
engine on explicit inputs. -/

/-- A platform bundle for the `linux` platform key. -/
def linuxPC (installTmpl verifyTmpl : List String) (url checksum : String) :
    PlatformConfig :=
  ⟨⟨"binary", url, checksum⟩, ⟨installTmpl, verifyTmpl, []⟩⟩

/-- A dependency with a single `linux` platform bundle and no
environment section. -/
def mkDep (n required constraint : String) (pc : PlatformConfig) : Dependency :=
  ⟨n, "", ⟨required, constraint⟩, [("linux", pc)], ⟨[], []⟩, []⟩

/-- A manager over the given dependency list, on platform `linux`. -/
def mkMgr (deps : List Dependency) : Manager :=
  ⟨⟨"1.0", "App", "", deps⟩, "linux"⟩

def c1dep : Dependency :=
  mkDep "tool-a" "1.0.0" "" (linuxPC ["install-a"] ["tool-a", "--version"] "" "")

def c1mgr : Manager := mkMgr [c1dep]

def c1lib : SemverLib := ⟨fun _ => some ⟨1, 0, 0, []⟩, fun _ => true, fun _ _ => true⟩

/-- A world whose verify subprocess exits non-zero (the tool is absent)
and whose install subprocess fails. -/
def c1world : ExecWorld :=
  ⟨fun _ => .exitErr "not found", fun _ => some "exit 1", fun _ _ => .ok "", true⟩

/-- The status `CheckAllDependencies` computes for `tool-a` in the `c1`
world: not installed, the verify failure captured in the error field. -/
def c1checked : DependencyStatus :=
  { name := "tool-a", error := some "dependency verification failed, output: not found" }

def c1sts : List (String × DependencyStatus) := [("tool-a", c1checked)]

/-- Version parsing stub knowing exactly the two versions the `c3`
fixture uses. -/
def c3parse (s : String) : Option SemVer :=
  if s = "1.0.0" then some ⟨1, 0, 0, []⟩
  else if s = "2.0.0" then some ⟨2, 0, 0, []⟩
  else none

def c3lib : SemverLib := ⟨c3parse, fun _ => true, fun _ _ => true⟩

/-- A world where every verify run reports version `1.0.0` and every
install succeeds. -/
def c3world : ExecWorld :=
  ⟨fun _ => .success "1.0.0", fun _ => none, fun _ _ => .ok "", true⟩

def c3depA : Dependency := mkDep "dep-a" "2.0.0" "" (linuxPC ["ia"] ["va"] "" "")

def c3depB : Dependency := mkDep "dep-b" "2.0.0" "" (linuxPC ["ib"] ["vb"] "" "")

def c3mgr : Manager := mkMgr [c3depA, c3depB]

def c3status (n : String) : DependencyStatus :=
  ⟨n, true, "1.0.0", .MajorUpdate, true, none⟩

def c3sts : List (String × DependencyStatus) :=
  [("dep-a", c3status "dep-a"), ("dep-b", c3status "dep-b")]

def c4opts : DownloadOptions := ⟨"https://example.com/test.msi", "sha256:AB", "/tmp", ""⟩

def c5dep1 : Dependency := mkDep "ok-dep" "1.0.0" "" (linuxPC ["i1"] ["v-ok"] "" "")

def c5dep2 : Dependency := mkDep "bad-dep" "1.0.0" "" (linuxPC ["i2"] ["v-bad"] "" "")

def c5mgr : Manager := mkMgr [c5dep1, c5dep2]

def c5lib : SemverLib :=
  ⟨fun s => if s = "1.0.0" then some ⟨1, 0, 0, []⟩ else none, fun _ => true, fun _ _ => true⟩

/-- A world where checking `bad-dep` fails while `ok-dep` verifies
cleanly. -/
def c5world : ExecWorld :=
  ⟨fun cmd => if cmd = ["v-bad"] then .exitErr "boom" else .success "1.0.0",
   fun _ => none, fun _ _ => .ok "", true⟩

def c7opts : DownloadOptions := ⟨"https://example.com/tool.pkg", "", "/tmp/dl", ""⟩

def c8pc : PlatformConfig := linuxPC ["inst"] ["verchk"] "" ""

def c8dep : Dependency := mkDep "c8-dep" "1.0.0" "" c8pc

def c8mgr : Manager := mkMgr [c8dep]

/-- A library stub whose version parser rejects everything, making the
update classification fail after a successful verify run. -/
def c8lib : SemverLib := ⟨fun _ => none, fun _ => true, fun _ _ => true⟩

def c8world : ExecWorld :=
  ⟨fun _ => .success "junk", fun _ => none, fun _ _ => .ok "", true⟩

/-- A platform bundle whose install command template is the empty
list. -/
def c9pc : PlatformConfig := linuxPC [] ["check"] "" ""

def c9dep : Dependency := mkDep "c9-dep" "1.0.0" "" c9pc

def c9mgr : Manager := mkMgr [c9dep]

def c9lib : SemverLib := ⟨fun _ => some ⟨1, 0, 0, []⟩, fun _ => true, fun _ _ => true⟩

def c9world : ExecWorld :=
  ⟨fun _ => .success "1.0.0", fun _ => none, fun _ _ => .ok "", true⟩

def c10opts : DownloadOptions := ⟨"https://example.com/x.bin", "", "/d", ""⟩

end Depman

namespace Depman

/-- The update classification expected by the spec's test vector table
(§8): equality and the four classes on the sample inputs. -/
theorem checkVersionUpdate_samples :
    checkVersionUpdate ⟨1,2,3,[]⟩ ⟨1,2,3,[]⟩ = .NoUpdate ∧
    checkVersionUpdate ⟨1,2,3,[]⟩ ⟨1,2,4,[]⟩ = .PatchUpdate ∧
    checkVersionUpdate ⟨1,2,3,[]⟩ ⟨1,3,0,[]⟩ = .MinorUpdate ∧
    checkVersionUpdate ⟨1,2,3,[]⟩ ⟨2,0,0,[]⟩ = .MajorUpdate ∧
    checkVersionUpdate ⟨2,0,0,[]⟩ ⟨1,0,0,[]⟩ = .NoUpdate := by
  refine ⟨rfl, rfl, rfl, rfl, rfl⟩

/-- C2 (counterexample): with current `2.0.0` and required `1.5.0`,
current is strictly above required in semantic-version order, yet
`CheckVersionUpdate` returns `MinorUpdate` (the cascade compares the
minor components after the major comparison failed only non-strictly), so
the claim "current ≥ required implies `NoUpdate`" is false. -/
theorem c2_counterexample :
    semverGe ⟨2, 0, 0, []⟩ ⟨1, 5, 0, []⟩ = true ∧
    checkVersionUpdate ⟨2, 0, 0, []⟩ ⟨1, 5, 0, []⟩ = UpdateType.MinorUpdate ∧
    UpdateType.MinorUpdate ≠ UpdateType.NoUpdate := by
  refine ⟨rfl, rfl, by decide⟩

/-- C2 (amended): when current is at least required in **every
component** (major, minor and patch each at least as large),
`CheckVersionUpdate` returns `NoUpdate` — in particular it never signals
a downgrade for componentwise-newer versions. -/
theorem c2_componentwise_no_downgrade (current required : SemVer)
    (h1 : required.major ≤ current.major)
    (h2 : required.minor ≤ current.minor)
    (h3 : required.patch ≤ current.patch) :
    checkVersionUpdate current required = .NoUpdate := by
  unfold checkVersionUpdate
  split_ifs with hEq hMaj hMin hPat
  · rfl
  · exact absurd hMaj (by omega)
  · exact absurd hMin (by omega)
  · exact absurd hPat (by omega)
  · rfl

/-- C2 witness: the amended theorem applied to `2.1.1` against `1.0.0`. -/
theorem c2_witness :
    ((⟨1, 0, 0, []⟩ : SemVer).major ≤ (⟨2, 1, 1, []⟩ : SemVer).major ∧
     (⟨1, 0, 0, []⟩ : SemVer).minor ≤ (⟨2, 1, 1, []⟩ : SemVer).minor ∧
     (⟨1, 0, 0, []⟩ : SemVer).patch ≤ (⟨2, 1, 1, []⟩ : SemVer).patch) ∧
    checkVersionUpdate ⟨2, 1, 1, []⟩ ⟨1, 0, 0, []⟩ = .NoUpdate :=
  ⟨⟨by decide, by decide, by decide⟩,
   c2_componentwise_no_downgrade ⟨2, 1, 1, []⟩ ⟨1, 0, 0, []⟩ (by decide) (by decide) (by decide)⟩

/-- C6: with an explicit custom path that does not exist (and carries the
`.yml` extension, so no suffixed variant is tried), `FindDependencyFile`
does **not** fail: it falls through to the conventional locations and
returns `app-dependencies.yml` from the working directory — the behavior
the repository's own test (`TestFindDependencyFile`, case "Error on
non-existent file", which runs in a directory containing
`app-dependencies.yml`) expects to be an error. -/
theorem c6_explicit_path_falls_through :
    statOk ⟨["app-dependencies.yml"]⟩ "not-exists.yml" = false ∧
    findDependencyFile ⟨["app-dependencies.yml"]⟩ "/home/u" "linux" "" "not-exists.yml" =
      some "app-dependencies.yml" := by
  refine ⟨rfl, rfl⟩

/-- C7 (counterexample): a `201 Created` response is in the 2xx success
class, yet `Download` rejects it as a bad-status failure, because the
source compares against `http.StatusOK` (200) exactly. -/
theorem c7_counterexample :
    (200 ≤ 201 ∧ 201 < 300) ∧
    (download (fun _ => "") c7opts (.response 201 [7])).result =
      Except.error (DlError.badStatus 201) := by
  exact ⟨by decide, rfl⟩

/-- C7 (amended): `Download` fails with a bad-status error exactly when
the response status code differs from 200; a 200 response with no
checksum requested is streamed to disk (the destination file holds the
body) and succeeds. -/
theorem c7_badstatus_iff (hashHex : List Nat → String) (opts : DownloadOptions)
    (code : Nat) (body : List Nat) :
    ((download hashHex opts (.response code body)).result =
        Except.error (DlError.badStatus code) ↔ code ≠ 200) ∧
    (code = 200 → opts.checksum = "" →
      (download hashHex opts (.response code body)).file = .present body ∧
      (download hashHex opts (.response code body)).result ≠
        Except.error (DlError.badStatus code)) := by
  by_cases hc : code = 200
  · subst hc
    constructor
    · constructor
      · intro h
        exfalso
        simp only [download] at h
        rw [if_neg (by omega)] at h
        split_ifs at h <;> simp_all
      · intro h; exact absurd rfl h
    · intro _ hck
      simp [download, hck]
  · constructor
    · constructor
      · intro _; exact hc
      · intro _
        simp [download, hc]
    · intro h; exact absurd h hc

/-- C7 witness: a 200 response with no checksum requested is streamed to
the destination file, not rejected as a bad status. -/
theorem c7_witness :
    (download (fun _ => "") c7opts (.response 200 [1, 2])).file = .present [1, 2] ∧
    (download (fun _ => "") c7opts (.response 200 [1, 2])).result ≠
      Except.error (DlError.badStatus 200) :=
  (c7_badstatus_iff (fun _ => "") c7opts 200 [1, 2]).2 rfl rfl

/-- C10: `os.Create` runs before `http.Get`, so when the request errors
or the status is rejected the (empty) destination file still exists after
the call; and the file is absent after the call only on the
checksum-mismatch path. -/
theorem c10_file_left_behind (hashHex : List Nat → String) (opts : DownloadOptions) :
    ((download hashHex opts .netError).file = .present [] ∧
      (download hashHex opts .netError).result = Except.error DlError.httpError) ∧
    (∀ code body, code ≠ 200 →
      (download hashHex opts (.response code body)).file = .present [] ∧
      (download hashHex opts (.response code body)).result =
        Except.error (DlError.badStatus code)) ∧
    (∀ http, (download hashHex opts http).file = .absent →
      ∃ e a, (download hashHex opts http).result =
        Except.error (DlError.checksumMismatch e a)) := by
  refine ⟨⟨rfl, rfl⟩, ?_, ?_⟩
  · intro code body h
    exact ⟨by simp [download, h], by simp [download, h]⟩
  · intro http habs
    cases http with
    | netError => simp [download] at habs
    | response code body =>
      simp only [download] at habs ⊢
      split_ifs at habs ⊢
      all_goals simp_all

/-- C4: with a well-formed `sha256` checksum request and a completed
stream, the computed digest is compared case-insensitively against the
expected hex; on mismatch the destination file is removed and the error
carries both digests; on match the call returns the file path, byte
count and computed digest, and the file holds the body. -/
theorem c4_checksum_verification (hashHex : List Nat → String)
    (opts : DownloadOptions) (body : List Nat) (expected : String)
    (hck : splitOnChar ':' opts.checksum = ["sha256", expected]) :
    (eqFold (hashHex body) expected = false →
      (download hashHex opts (.response 200 body)).result =
        Except.error (DlError.checksumMismatch expected (hashHex body)) ∧
      (download hashHex opts (.response 200 body)).file = .absent) ∧
    (eqFold (hashHex body) expected = true →
      (download hashHex opts (.response 200 body)).result =
        Except.ok ⟨opts.destDir ++ "/" ++
            (if opts.filename = "" then urlBase opts.url else opts.filename),
          body.length, hashHex body⟩ ∧
      (download hashHex opts (.response 200 body)).file = .present body) := by
  have hnz : opts.checksum ≠ "" := by
    intro h
    rw [h] at hck
    simp [splitOnChar, splitCharsOn] at hck
  constructor <;> intro hfold <;>
    simp [download, hck, hnz, hfold, show strToLower "sha256" = "sha256" from rfl]

/-- C4 witness: digest `ab` against expected `AB` matches
case-insensitively and the download succeeds with path, size and
digest. -/
theorem c4_witness :
    (download (fun _ => "ab") c4opts (.response 200 [1, 2, 3])).result =
      Except.ok ⟨"/tmp/test.msi", 3, "ab"⟩ ∧
    (download (fun _ => "ab") c4opts (.response 200 [1, 2, 3])).file =
      .present [1, 2, 3] :=
  (c4_checksum_verification (fun _ => "ab") c4opts [1, 2, 3] "AB" rfl).2 rfl

/-- C10 witness: a 404 response leaves an empty file at the destination
and reports the bad status. -/
theorem c10_witness :
    (download (fun _ => "") c10opts (.response 404 [])).file = .present [] ∧
    (download (fun _ => "") c10opts (.response 404 [])).result =
      Except.error (DlError.badStatus 404) :=
  (c10_file_left_behind (fun _ => "") c10opts).2.1 404 [] (by decide)

/-- When `VerifyDependency` raises an error, that error is also written
into the status it returns. -/
theorem verifyDependency_error_recorded (lib : SemverLib) (w : ExecWorld)
    (m : Manager) (dep : Dependency) (e : String)
    (h : (verifyDependency lib w m dep).2 = some e) :
    (verifyDependency lib w m dep).1.error = some e := by
  unfold verifyDependency at h ⊢
  rcases hpc : dep.platforms.lookup m.platform with _ | pc
  · simp_all
  · by_cases hv : pc.commands.verify = []
    · simp_all
    · rcases hr : w.runVerify pc.commands.verify with _ | out | out <;> simp_all

/-- C5: `CheckAllDependencies` aborts with an error and no statuses when
manifest validation fails; otherwise it returns a status entry for every
declared dependency — each dependency's entry is its own `Verifier`
result, independent of the others — and a per-dependency check failure is
captured into that dependency's status. -/
theorem c5_checkall_validation_and_isolation (lib : SemverLib) (w : ExecWorld)
    (m : Manager) :
    (validateDependencies lib m ≠ [] →
      checkAllDependencies lib w m =
        .error ("dependency configuration errors: " ++
          String.intercalate "; " (validateDependencies lib m))) ∧
    (validateDependencies lib m = [] →
      checkAllDependencies lib w m =
        .ok (m.config.dependencies.map
          (fun dep => (dep.name, (verifyDependency lib w m dep).1))) ∧
      (∀ dep ∈ m.config.dependencies,
        (dep.name, (verifyDependency lib w m dep).1) ∈
          m.config.dependencies.map
            (fun d => (d.name, (verifyDependency lib w m d).1))) ∧
      (∀ dep ∈ m.config.dependencies, ∀ e,
        (verifyDependency lib w m dep).2 = some e →
        (verifyDependency lib w m dep).1.error = some e)) := by
  constructor
  · intro h
    simp [checkAllDependencies, h]
  · intro h
    refine ⟨by simp [checkAllDependencies, h], ?_, ?_⟩
    · intro dep hdep
      exact List.mem_map_of_mem _ hdep
    · intro dep _ e he
      exact verifyDependency_error_recorded lib w m dep e he

/-- C5 witness: on a manifest with a cleanly verifying dependency and one
whose verify subprocess fails, validation passes, both dependencies get a
status entry, and the bad dependency's failure is recorded in its own
status. -/
theorem c5_witness :
    checkAllDependencies c5lib c5world c5mgr =
      .ok (c5mgr.config.dependencies.map
        (fun dep => (dep.name, (verifyDependency c5lib c5world c5mgr dep).1))) ∧
    (∀ dep ∈ c5mgr.config.dependencies,
      (dep.name, (verifyDependency c5lib c5world c5mgr dep).1) ∈
        c5mgr.config.dependencies.map
          (fun d => (d.name, (verifyDependency c5lib c5world c5mgr d).1))) ∧
    (∀ dep ∈ c5mgr.config.dependencies, ∀ e,
      (verifyDependency c5lib c5world c5mgr dep).2 = some e →
      (verifyDependency c5lib c5world c5mgr dep).1.error = some e) :=
  (c5_checkall_validation_and_isolation c5lib c5world c5mgr).2 rfl

/-- C8: after a successful verify subprocess run, `VerifyDependency`
returns without raising; an absent constraint marks the status compatible
by definition; a compatibility-check failure is recorded in the status's
error field; and a version-classification failure is recorded there as
well (when no later compatibility failure overwrites it). -/
theorem c8_verify_failures_recorded (lib : SemverLib) (w : ExecWorld)
    (m : Manager) (dep : Dependency) (pc : PlatformConfig) (out : String)
    (hpc : dep.platforms.lookup m.platform = some pc)
    (hv : pc.commands.verify ≠ [])
    (hrun : w.runVerify pc.commands.verify = .success out) :
    (verifyDependency lib w m dep).2 = none ∧
    (dep.version.constraint = "" →
      (verifyDependency lib w m dep).1.compatible = true) ∧
    (∀ e, dep.version.constraint ≠ "" →
      isVersionCompatibleStr lib (verifiedVersion out) dep.version.constraint = .error e →
      (verifyDependency lib w m dep).1.error = some e) ∧
    (∀ e, dep.version.required ≠ "" →
      checkVersionUpdateStr lib.parseVersion (verifiedVersion out) dep.version.required =
        .error e →
      (dep.version.constraint = "" ∨
        ∃ b, isVersionCompatibleStr lib (verifiedVersion out) dep.version.constraint = .ok b) →
      (verifyDependency lib w m dep).1.error = some e) := by
  unfold verifyDependency
  simp only [hpc, hrun, eq_false hv, if_false]
  refine ⟨by trivial, ?_, ?_, ?_⟩
  · intro hc
    simp [hc]
  · intro e hc hcompat
    by_cases hreq : dep.version.required = ""
    · simp [hreq, hc, hcompat]
    · rcases hcls : checkVersionUpdateStr lib.parseVersion (verifiedVersion out)
          dep.version.required with e' | u <;>
        simp [hreq, hc, hcompat, hcls]
  · intro e hreq hcls hcases
    rcases hcases with hc | ⟨b, hb⟩
    · simp [hreq, hc, hcls]
    · by_cases hc : dep.version.constraint = "" <;> simp [hreq, hc, hb, hcls]

/-- C8 witness: with a verify run producing unparsable output `junk`, the
call raises nothing and the classification failure lands in the status's
error field. -/
theorem c8_witness :
    (verifyDependency c8lib c8world c8mgr c8dep).2 = none ∧
    (verifyDependency c8lib c8world c8mgr c8dep).1.error =
      some "invalid current version: junk" ∧
    (verifyDependency c8lib c8world c8mgr c8dep).1.compatible = true := by
  have h := c8_verify_failures_recorded c8lib c8world c8mgr c8dep c8pc "junk"
    rfl (by decide) rfl
  exact ⟨h.1, h.2.2.2 "invalid current version: junk" (by decide) rfl (Or.inl rfl),
    h.2.1 rfl⟩

/-- Folding error accumulation is appending the per-element error
lists. -/
theorem foldl_errs_append (f : Dependency → List String) (l : List Dependency)
    (acc : List String) :
    l.foldl (fun errs dep => errs ++ f dep) acc = acc ++ (l.map f).flatten := by
  induction l generalizing acc with
  | nil => simp
  | cons d ds ih => simp [ih, List.append_assoc]

/-- A flattened map is empty exactly when every element maps to the empty
list. -/
theorem flatten_map_eq_nil (f : Dependency → List String) (l : List Dependency) :
    (l.map f).flatten = [] ↔ ∀ x ∈ l, f x = [] := by
  induction l with
  | nil => simp
  | cons d ds ih => simp [ih]

/-- The validation errors contributed for one dependency are empty
exactly when its platform bundle exists, its required version is
non-empty and its constraint, if any, parses. -/
theorem depErrors_eq_nil (lib : SemverLib) (platform : String) (dep : Dependency) :
    depErrors lib platform dep = [] ↔
      (∃ pc, dep.platforms.lookup platform = some pc) ∧
      dep.version.required ≠ "" ∧
      (dep.version.constraint ≠ "" → lib.constraintOk dep.version.constraint = true) := by
  unfold depErrors
  rcases h : dep.platforms.lookup platform with _ | pc
  · simp
  · simp only [List.append_eq_nil]
    constructor
    · rintro ⟨h1, h2⟩
      refine ⟨⟨pc, rfl⟩, ?_, ?_⟩
      · intro hreq
        simp [hreq] at h1
      · intro hcon
        by_cases hok : lib.constraintOk dep.version.constraint = true
        · exact hok
        · simp [hcon, hok] at h2
    · rintro ⟨-, hreq, hcon⟩
      constructor
      · simp [hreq]
      · by_cases hc : dep.version.constraint = ""
        · simp [hc]
        · simp [hc, hcon hc]

/-- `validateDependencies` passes exactly when the dependency list is
non-empty and every dependency has a platform bundle, a non-empty
required version, and a parsable constraint when one is given — the
characterization mentions neither the install nor the verify command
template. -/
theorem validateDependencies_eq_nil (lib : SemverLib) (m : Manager) :
    validateDependencies lib m = [] ↔
      m.config.dependencies ≠ [] ∧
      ∀ dep ∈ m.config.dependencies,
        (∃ pc, dep.platforms.lookup m.platform = some pc) ∧
        dep.version.required ≠ "" ∧
        (dep.version.constraint ≠ "" → lib.constraintOk dep.version.constraint = true) := by
  unfold validateDependencies
  split_ifs with hd
  · simp [hd]
  · rw [foldl_errs_append, List.nil_append, flatten_map_eq_nil]
    simp only [ne_eq, hd, not_false_iff, true_and]
    constructor
    · intro h dep hdep
      exact (depErrors_eq_nil lib m.platform dep).mp (h dep hdep)
    · intro h dep hdep
      exact (depErrors_eq_nil lib m.platform dep).mpr (h dep hdep)

/-- C9: a dependency whose active-platform install template is empty
makes `installDependency` index the head of an empty substituted argument
vector — a runtime panic; manifest validation passes regardless (its
characterization never mentions the install template), while
`VerifyDependency` explicitly rejects an empty verify template with an
error. -/
theorem c9_empty_install_template_panics (lib : SemverLib) (w : ExecWorld)
    (m : Manager) (dep : Dependency) (pc : PlatformConfig)
    (hpc : dep.platforms.lookup m.platform = some pc)
    (hurl : pc.installer.url = "")
    (hinst : pc.commands.install = []) :
    installDependency w m dep = .panicked ∧
    (validateDependencies lib m = [] ↔
      m.config.dependencies ≠ [] ∧
      ∀ d ∈ m.config.dependencies,
        (∃ pcd, d.platforms.lookup m.platform = some pcd) ∧
        d.version.required ≠ "" ∧
        (d.version.constraint ≠ "" → lib.constraintOk d.version.constraint = true)) ∧
    (pc.commands.verify = [] →
      (verifyDependency lib w m dep).2 =
        some ("no verification command provided for dependency: " ++ dep.name)) := by
  refine ⟨?_, validateDependencies_eq_nil lib m, ?_⟩
  · simp [installDependency, hpc, hurl, hinst, substituteInstallArgs]
  · intro hv
    simp [verifyDependency, hpc, hv]

/-- C9 witness: the `c9` fixture's install template is empty, installing
it panics, and yet `validateDependencies` reports no error for its
manifest. -/
theorem c9_witness :
    installDependency c9world c9mgr c9dep = InstallResult.panicked ∧
    validateDependencies c9lib c9mgr = [] := by
  have h := c9_empty_install_template_panics c9lib c9world c9mgr c9dep c9pc rfl rfl rfl
  exact ⟨h.1, rfl⟩

/-- One step of the ensure loop when the head dependency needs an install
and the install fails: the error is written into that status, and the
loop aborts with that error. -/
theorem ensureLoop_head_install_failed (lib : SemverLib) (w : ExecWorld)
    (m : Manager) (name : String) (rest : List String)
    (sts : List (String × DependencyStatus)) (status : DependencyStatus)
    (dep : Dependency) (e : String)
    (hlook : sts.lookup name = some status)
    (hskip : upToDate status = false)
    (hfind : m.config.dependencies.find? (fun d => d.name = name) = some dep)
    (hfail : installDependency w m dep = .failed e) :
    ensureLoop lib w m (name :: rest) sts =
      ⟨updateEntry sts name { status with error := some e, installed := false },
       .hardError e, [name]⟩ := by
  simp [ensureLoop, hlook, hskip, hfind, hfail]

/-- C1 (counterexample): in the `c1` fixture the single dependency needs
installing and its install fails; `EnsureDependencies` returns the
partial status map together with the error, but `ApplyToCurrentProcess`
is **not** invoked — the early return skips the environment merge, so the
claim that the merge is applied even when the loop is aborted is
false. -/
theorem c1_counterexample :
    (ensureDependencies c1lib c1world c1mgr ["tool-a"]).term =
      EnsureTermination.hardError "installation failed, output: exit 1" ∧
    (ensureDependencies c1lib c1world c1mgr ["tool-a"]).statuses =
      some [("tool-a",
        { name := "tool-a", installed := false,
          error := some "installation failed, output: exit 1" })] ∧
    (ensureDependencies c1lib c1world c1mgr ["tool-a"]).applied = false := by
  refine ⟨rfl, rfl, rfl⟩

/-- C1 (amended): a hard install failure aborts the batch and is
propagated to the caller together with the partial status map (the
failing dependency's status carrying the error); the accumulated
environment merge is applied exactly when the install loop runs to
completion, and a failure to apply it is then logged, not raised. -/
theorem c1_install_failure_and_env_apply (lib : SemverLib) (w : ExecWorld)
    (m : Manager) (iterOrder : List String) :
    ((ensureDependencies lib w m iterOrder).applied = true ↔
      (ensureDependencies lib w m iterOrder).term = .completed) ∧
    ((ensureDependencies lib w m iterOrder).term = .completed →
      (ensureDependencies lib w m iterOrder).applyWarnLogged = !w.applyEnvOk) ∧
    (∀ name rest sts status dep e,
      validateDependencies lib m = [] →
      checkAllDependencies lib w m = .ok sts →
      iterOrder = name :: rest →
      sts.lookup name = some status →
      upToDate status = false →
      m.config.dependencies.find? (fun d => d.name = name) = some dep →
      installDependency w m dep = .failed e →
      (ensureDependencies lib w m iterOrder).term = .hardError e ∧
      (ensureDependencies lib w m iterOrder).statuses =
        some (updateEntry sts name { status with error := some e, installed := false }) ∧
      (ensureDependencies lib w m iterOrder).applied = false) := by
  refine ⟨?_, ?_, ?_⟩
  · by_cases hval : validateDependencies lib m = []
    · rcases hca : checkAllDependencies lib w m with msg | sts
      · simp [ensureDependencies, hval, hca]
      · cases hterm : (ensureLoop lib w m iterOrder sts).term <;>
          simp [ensureDependencies, hval, hca, hterm]
    · simp [ensureDependencies, hval]
  · intro hcompl
    by_cases hval : validateDependencies lib m = []
    · rcases hca : checkAllDependencies lib w m with msg | sts
      · simp [ensureDependencies, hval, hca] at hcompl
      · cases hterm : (ensureLoop lib w m iterOrder sts).term <;>
          simp [ensureDependencies, hval, hca, hterm] at hcompl ⊢
    · simp [ensureDependencies, hval] at hcompl
  · intro name rest sts status dep e hval hca horder hlook hskip hfind hfail
    subst horder
    have hloop := ensureLoop_head_install_failed lib w m name rest sts status dep e
      hlook hskip hfind hfail
    refine ⟨?_, ?_, ?_⟩ <;> simp [ensureDependencies, hval, hca, hloop]

/-- C1 witness: the amended theorem instantiated on the `c1` fixture. -/
theorem c1_witness :
    (ensureDependencies c1lib c1world c1mgr ["tool-a"]).term =
      EnsureTermination.hardError "installation failed, output: exit 1" ∧
    (ensureDependencies c1lib c1world c1mgr ["tool-a"]).statuses =
      some (updateEntry c1sts "tool-a"
        { c1checked with error := some "installation failed, output: exit 1",
                         installed := false }) ∧
    (ensureDependencies c1lib c1world c1mgr ["tool-a"]).applied = false :=
  (c1_install_failure_and_env_apply c1lib c1world c1mgr ["tool-a"]).2.2
    "tool-a" [] c1sts c1checked c1dep "installation failed, output: exit 1"
    rfl rfl rfl rfl rfl rfl rfl

/-- The install loop runs installs one at a time following its iteration
order: the recorded install sequence is a subsequence of that order. -/
theorem ensureLoop_installs_sublist (lib : SemverLib) (w : ExecWorld) (m : Manager) :
    ∀ (order : List String) (sts : List (String × DependencyStatus)),
      (ensureLoop lib w m order sts).installs.Sublist order := by
  intro order
  induction order with
  | nil => intro sts; simp [ensureLoop]
  | cons name rest ih =>
    intro sts
    simp only [ensureLoop]
    split
    · exact (ih sts).cons name
    · split
      · exact (ih sts).cons name
      · split
        · exact List.nil_sublist _
        · split
          · exact (List.nil_sublist rest).cons₂ name
          · exact (List.nil_sublist rest).cons₂ name
          · split
            · exact (List.nil_sublist rest).cons₂ name
            · exact (ih _).cons₂ name

/-- C3 (counterexample): in the `c3` fixture the manifest declares
`dep-a` before `dep-b`, both need installing, and iterating the Go status
map in the order `dep-b`, `dep-a` — a legitimate iteration order of that
map, whose order the language leaves unspecified — makes
`EnsureDependencies` install `dep-b` first: the install sequence is not
the manifest order. -/
theorem c3_counterexample :
    c3mgr.config.dependencies.map (fun d => d.name) = ["dep-a", "dep-b"] ∧
    List.Perm ["dep-b", "dep-a"] (c3sts.map Prod.fst) ∧
    checkAllDependencies c3lib c3world c3mgr = .ok c3sts ∧
    (ensureDependencies c3lib c3world c3mgr ["dep-b", "dep-a"]).installs =
      ["dep-b", "dep-a"] ∧
    (["dep-b", "dep-a"] : List String) ≠ ["dep-a", "dep-b"] := by
  refine ⟨rfl, List.Perm.swap "dep-a" "dep-b" [], rfl, rfl, by decide⟩

/-- C3 (amended): `CheckAllDependencies` checks the dependencies in
manifest order (its status list's keys are the manifest names in order),
and `EnsureDependencies` installs one at a time following the status-map
iteration order: the install sequence is a subsequence of that iteration
order (which the Go map leaves unspecified, not the manifest order). -/
theorem c3_check_order_install_sequence (lib : SemverLib) (w : ExecWorld)
    (m : Manager) (iterOrder : List String)
    (sts : List (String × DependencyStatus))
    (h : checkAllDependencies lib w m = .ok sts) :
    sts.map Prod.fst = m.config.dependencies.map (fun d => d.name) ∧
    (ensureDependencies lib w m iterOrder).installs.Sublist iterOrder := by
  constructor
  · by_cases hval : validateDependencies lib m = []
    · simp only [checkAllDependencies, hval, ne_eq, not_true_eq_false, if_false,
        Except.ok.injEq] at h
      subst h
      simp [List.map_map, Function.comp]
    · simp [checkAllDependencies, hval] at h
  · by_cases hval : validateDependencies lib m = []
    · rcases hca : checkAllDependencies lib w m with msg | sts'
      · simp [ensureDependencies, hval, hca, List.nil_sublist]
      · cases hterm : (ensureLoop lib w m iterOrder sts').term <;>
          simp [ensureDependencies, hval, hca, hterm] <;>
          exact ensureLoop_installs_sublist lib w m iterOrder sts'
    · simp [ensureDependencies, hval, List.nil_sublist]

/-- C3 witness: the amended theorem instantiated on the `c3` fixture with
iteration order `dep-b`, `dep-a`. -/
theorem c3_witness :
    c3sts.map Prod.fst = c3mgr.config.dependencies.map (fun d => d.name) ∧
    (ensureDependencies c3lib c3world c3mgr ["dep-b", "dep-a"]).installs.Sublist
      ["dep-b", "dep-a"] :=
  c3_check_order_install_sequence c3lib c3world c3mgr ["dep-b", "dep-a"] c3sts rfl

end Depman
